import Mathlib

/-!
# astra-update: shallow embedding and verification

A shallow embedding of the host-side boot-and-flash engine of
`astra-update` (Synaptics Astra USB boot/update tool), together with
proofs about the embedded definitions.

Embedded components and their C++ sources:

* byte-level image framing and the bulk-out send loop
  (`lib/astra_device.cpp`, `AstraDeviceImpl::SendImage`,
  `Image::GetDataBlock` in `lib/image.cpp`, `HostToLE` in `lib/utils.cpp`);
* the size-echo file `07_IMAGE`
  (`AstraDeviceImpl::UpdateImageSizeRequestFile`);
* the per-device session state machine
  (`AstraDeviceImpl::Boot`, `HandleInterrupt`, `USBEventHandler`,
  `HandleImageRequests`, `WaitForCompletion`);
* boot-bundle final-image selection (`lib/astra_boot_image.cpp`);
* SPI and eMMC flash-plan loading (`lib/spi_flash_image.cpp`,
  `lib/emmc_flash_image.cpp`, `lib/flash_image.cpp`).

Conventions: machine bytes are `Nat` values below 256; `uint32_t`
truncation is explicit (`% 2^32`); the host is little-endian (all
supported targets are), so a raw `fwrite` of a `uint32_t` produces the
4 little-endian bytes of the value; file contents are `List Nat`;
fallible operations return `Option`.
-/

namespace AstraUpdate

/-! ## Byte-level helpers -/

/-- `uint32_t` truncation: C++ stores image sizes in a `uint32_t`
(`Image::Load`: `uint32_t size = std::filesystem::file_size(...)`). -/
def u32trunc (n : Nat) : Nat := n % 4294967296

/-- The 4 little-endian bytes of a 32-bit value, as produced by
`HostToLE` (`lib/utils.cpp`) followed by a 4-byte `memcpy`, and equally
by a raw `fwrite` of a `uint32_t` on the little-endian hosts the tool
supports. -/
def leBytes4 (n : Nat) : List Nat :=
  [n % 256, n / 256 % 256, n / 65536 % 256, n / 16777216 % 256]


/-- Byte image of an ASCII string (used for files the host itself
writes, e.g. the synthesized `uEnv.txt`). -/
def strBytes (s : String) : List Nat := s.toList.map Char.toNat

/-- C++ `std::string::find(sub) != npos`: `sub` occurs as a contiguous
substring of `s` (the empty string always occurs). -/
def strContains (s sub : String) : Bool := decide (sub.toList <:+: s.toList)

/-! ## Flash plans: SPI command construction (`lib/spi_flash_image.cpp`) -/

/-- Per-image SPI parameters with the defaults of
`SpiFlashImage::SpiImageConfig` (`lib/spi_flash_image.hpp`). -/
structure SpiImageConfig where
  imageFile : String
  readAddress : String := "0x10000000"
  writeFirstCopyAddress : String := "0xf0000000"
  writeSecondCopyAddress : String := "0xf0200000"
  writeLength : String := "0x200000"
  eraseFirstStartAddress : String := "0xf0000000"
  eraseFirstLength : String := "0xf01fffff"
  eraseSecondStartAddress : String := "0xf0200000"
  eraseSecondLength : String := "0xf03fffff"
deriving DecidableEq, Repr

/-- Key lookup in a flat manifest section (`std::map` section of the
parsed YAML, modelled as an association list). -/
def cfgFind (cfg : List (String × String)) (key : String) : Option String :=
  (cfg.find? (fun kv => kv.fst == key)).map Prod.snd

/-- `SpiFlashImage::ParseSpiFlashConfig`: start from the defaults and
let manifest keys override each field. -/
def parseSpiFlashConfig (cfg : List (String × String)) (imageFile : String) :
    SpiImageConfig :=
  { imageFile := imageFile
    readAddress := (cfgFind cfg "read_address").getD "0x10000000"
    writeFirstCopyAddress := (cfgFind cfg "write_first_copy_address").getD "0xf0000000"
    writeSecondCopyAddress := (cfgFind cfg "write_second_copy_address").getD "0xf0200000"
    writeLength := (cfgFind cfg "write_length").getD "0x200000"
    eraseFirstStartAddress := (cfgFind cfg "erase_first_start_address").getD "0xf0000000"
    eraseFirstLength := (cfgFind cfg "erase_first_length").getD "0xf01fffff"
    eraseSecondStartAddress := (cfgFind cfg "erase_second_start_address").getD "0xf0200000"
    eraseSecondLength := (cfgFind cfg "erase_second_length").getD "0xf03fffff" }

/-- `FlashImage::m_resetCommand` (`include/flash_image.hpp`). -/
def resetCommand : String := "; sleep 1; reset"

/-- The per-image fragment appended to `m_flashCommand` in
`SpiFlashImage::Load` (`lib/spi_flash_image.cpp`, the loop over
`m_spiImageConfigs`). -/
def spiCommandFor (c : SpiImageConfig) : String :=
  "usbload " ++ c.imageFile ++ " " ++ c.readAddress ++ "; spinit; erase "
    ++ c.eraseFirstStartAddress ++ " " ++ c.eraseFirstLength ++ "; cp.b "
    ++ c.readAddress ++ " " ++ c.writeFirstCopyAddress
    ++ " " ++ c.writeLength ++ "; erase "
    ++ c.eraseSecondStartAddress ++ " " ++ c.eraseSecondLength
    ++ "; cp.b " ++ c.readAddress ++ " " ++ c.writeSecondCopyAddress
    ++ " " ++ c.writeLength ++ "; "

/-- The full flash command built at the end of `SpiFlashImage::Load`:
the concatenated per-image fragments, plus the reset suffix when
`m_resetWhenComplete` holds. -/
def spiFlashCommand (configs : List SpiImageConfig) (resetWhenComplete : Bool) :
    String :=
  (configs.foldl (fun acc c => acc ++ spiCommandFor c) "")
    ++ (if resetWhenComplete then resetCommand else "")

/-! ## eMMC flash plan (`lib/emmc_flash_image.cpp`) -/

/-- The observable outcome of `EmmcFlashImage::Load` for the fields the
claims touch: the U-Boot command and the reset flag.  `dirExists`
stands for `std::filesystem::exists(m_imagePath) &&
std::filesystem::is_directory(m_imagePath)`; `directoryName` for the
path's trailing component. -/
structure EmmcLoadResult where
  flashCommand : String
  resetWhenComplete : Bool
deriving DecidableEq, Repr

/-- `EmmcFlashImage::Load`, restricted to the command and reset flag:
when the image path is an existing directory the command is
`l2emmc <dir>` plus the reset suffix and `m_resetWhenComplete` is
overwritten with `true`; otherwise both fields keep their constructed
values. -/
def emmcLoad (initReset : Bool) (dirExists : Bool) (directoryName : String) :
    EmmcLoadResult :=
  if dirExists then
    { flashCommand := "l2emmc " ++ directoryName ++ resetCommand
      resetWhenComplete := true }
  else
    { flashCommand := "", resetWhenComplete := initReset }

/-! ## Boot bundle final-image selection (`lib/astra_boot_image.cpp`) -/

/-- `AstraSecureBootVersion` (`include/image.hpp`). -/
inductive SecureBootVersion where
  | v2
  | v3
deriving DecidableEq, Repr

/-- The Linux-boot flag and final boot image computed by
`AstraBootImage::Load` from the set of file names in the bundle
directory, the secure-boot version and the uEnv-support flag
(`lib/astra_boot_image.cpp`, lines 93-109).  `m_linuxBoot` starts
`false` and is only ever set `true` in the two kernel/ramdisk
branches. -/
def bootImageFinal (files : List String) (secureBoot : SecureBootVersion)
    (uEnvSupport : Bool) : Bool × String :=
  if files.contains "Image.gz" && files.contains "ramdisk.cpio.gz" then
    (true, "ramdisk.cpio.gz")
  else if files.contains "Image" && files.contains "rootfs.cpio.gz" then
    (true, "rootfs.cpio.gz")
  else
    match secureBoot with
    | .v2 => (false, "minildr.img")
    | .v3 => if uEnvSupport then (false, "uEnv.txt") else (false, "gen3_uboot.bin.usb")

/-! ## Byte-level image send (`Image::GetDataBlock`, `AstraDeviceImpl::SendImage`) -/

/-- `m_imageBufferSize = (1 * 1024 * 1024) + 4` (`lib/astra_device.cpp`). -/
def imageBufferSize : Nat := 1048580

/-- `Image::GetDataBlock(data, cap)` (`lib/image.cpp`): clamp the read
size first to `m_imageSize`, then to the bytes left after the current
file position `pos`, and read that many bytes at `pos`.  `imageSize` is
the (`uint32_t`-truncated) size recorded by `Image::Load`. -/
def getDataBlock (contents : List Nat) (imageSize pos cap : Nat) : List Nat :=
  let r1 := if imageSize < cap then imageSize else cap
  let r2 := if imageSize < pos + r1 then imageSize - pos else r1
  (contents.drop pos).take r2

/-- The block-sending loop of `AstraDeviceImpl::SendImage`
(`while (totalTransferred < totalTransferSize)`), returning the list
of payload blocks written to the bulk-out endpoint, one per
`USBDevice::Write` call.  A successful `Write` transfers the whole
block, so `totalTransferred` grows by the block length each iteration.
`fuel` bounds the iteration count; `none` models the loop failing to
terminate (a zero-length block while bytes are still owed, which the
C++ loop would spin on forever). -/
def sendLoop (contents : List Nat) (imageSize bufSize totalSize : Nat) :
    Nat → Nat → Nat → Option (List (List Nat))
  | fuel, pos, total =>
    if total < totalSize then
      match fuel with
      | 0 => none
      | fuel' + 1 =>
        let blk := getDataBlock contents imageSize pos bufSize
        (sendLoop contents imageSize bufSize totalSize fuel'
          (pos + blk.length) (total + blk.length)).map (blk :: ·)
    else some []

/-- The payload blocks of one `SendImage` call: run the block loop from
file position 0 with `totalTransferred = 8` (the header was written
first) up to `totalTransferSize = imageSize + 8`.  The fuel
`imageSize + 1` suffices because every iteration sends at least one
byte (`sendLoop_correct`). -/
def sendBlocks (contents : List Nat) (bufSize : Nat) :
    Option (List (List Nat)) :=
  sendLoop contents (u32trunc contents.length) bufSize
    (u32trunc contents.length + 8) (u32trunc contents.length + 1) 0 8

/-- The complete bulk-out byte stream of one `SendImage` call: the
8-byte header (`HostToLE` size over a zeroed buffer, i.e. 4
little-endian size bytes then 4 zero bytes) followed by the payload
blocks. -/
def sendImageStream (contents : List Nat) (bufSize : Nat) : Option (List Nat) :=
  (sendBlocks contents bufSize).map
    (fun bs => leBytes4 (u32trunc contents.length) ++ [0, 0, 0, 0] ++ bs.flatten)

/-! ## The per-device session state machine (`lib/astra_device.cpp`)

The session is modelled as a state plus a step function over external
happenings.  A happening is an interrupt frame delivered by the USB
event loop (already split by `HandleInterrupt`'s scan into a request
marker, carrying the tag byte and the NUL-terminated name that follows
`i*m*g*r*q*`, or console text), a device-gone/transfer-error event, or
one iteration of the request-serving loop in `HandleImageRequests`
(either serving the pending request or hitting the 10 s
condition-variable timeout).  Happenings are processed atomically at
loop-iteration granularity, matching the mutex discipline of the
source (`m_imageMutex` is held for the whole serve). -/

/-- `AstraDeviceStatus` (`include/astra_device.hpp`). -/
inductive DStatus where
  | added
  | opened
  | closed
  | bootStart
  | bootProgress
  | bootComplete
  | bootFail
  | updateStart
  | updateProgress
  | updateComplete
  | updateFail
  | imageSendStart
  | imageSendProgress
  | imageSendComplete
  | imageSendFail
deriving DecidableEq, Repr

/-- `AstraUbootConsole` (`lib/astra_boot_image.hpp`). -/
inductive UbootConsole where
  | uart
  | usb
deriving DecidableEq, Repr

/-- `AstraImageType` (`include/image.hpp`). -/
inductive ImageType where
  | boot
  | updateEmmc
  | updateSpi
  | updateNand
deriving DecidableEq, Repr

/-- One entry of the session's image list `m_images`: basename, type
tag, file contents. -/
structure ImageRec where
  name : String
  itype : ImageType
  contents : List Nat
deriving DecidableEq, Repr

/-- One `DeviceResponse` delivered through the status callback
(`SendStatus`).  Progress is modelled as an exact rational; the code
uses a `double`, and every value a claim mentions (0 and 100) is exact
in both. -/
structure StatusEvent where
  status : DStatus
  progress : ℚ
  imageName : String
  message : String
deriving DecidableEq, Repr

/-- `m_uEnvFilename`. -/
def uEnvFilename : String := "uEnv.txt"

/-- `m_usbPathImageFilename`. -/
def usbPathImageFilename : String := "06_IMAGE"

/-- `m_sizeRequestImageFilename`. -/
def sizeRequestImageFilename : String := "07_IMAGE"

/-- The mutable session state of `AstraDevice::AstraDeviceImpl`,
plus the request-loop local `waitForSizeRequest`, the loop-returned
flag `loopDone` (the `return` statements of `HandleImageRequests`),
the byte contents of the on-disk `07_IMAGE` file (`none` before the
first write, when the file does not exist), and the filtered list of
status events delivered so far. -/
structure SessState where
  status : DStatus
  running : Bool
  loopDone : Bool
  bootOnly : Bool
  uEnvSupport : Bool
  console : UbootConsole
  resetWhenComplete : Bool
  finalBootImage : String
  finalUpdateImage : String
  waitForSizeRequest : Bool
  imageRequestReady : Bool
  imageType : Nat
  requestedImageName : String
  images : List ImageRec
  sizeFile : Option (List Nat)
  imageCount : Nat
  emitted : List StatusEvent
deriving DecidableEq, Repr

/-- `AstraDeviceImpl::SendStatus`: deliver the event through the
callback unless it concerns the size-request image `07_IMAGE`. -/
def sendStatus (s : SessState) (ev : StatusEvent) : SessState :=
  if ev.imageName = sizeRequestImageFilename then s
  else { s with emitted := s.emitted ++ [ev] }

/-- Deliver a list of events in order. -/
def sendStatusList (s : SessState) (evs : List StatusEvent) : SessState :=
  evs.foldl sendStatus s

/-- The trailing-NUL strip in `HandleInterrupt`
(`find_last_not_of('\0')`): keep everything up to the last non-NUL
character; when there is none (`npos`), the name is kept whole. -/
def stripTrailingNuls (r : String) : String :=
  let t := (r.toList.reverse.dropWhile (fun c => c == Char.ofNat 0)).reverse
  if t.isEmpty then r else String.mk t

/-- The leading-`prefix/` strip at the top of the serve path
(`HandleImageRequests`, `m_requestedImageName.find('/')`): keep the
portion after the first `/` when one occurs. -/
def stripSlashPrefix (n : String) : String :=
  match n.toList.findIdx? (fun c => c == '/') with
  | none => n
  | some i => String.mk (n.toList.drop (i + 1))

/-- An interrupt-in frame as classified by `HandleInterrupt`'s scan for
`i*m*g*r*q*`: a request marker carries the tag byte that follows the
marker and the raw name text after it; anything else is console
text. -/
inductive Frame where
  | marker (tag : Nat) (rawName : String)
  | console (text : String)
deriving DecidableEq, Repr

/-- `AstraDeviceImpl::HandleInterrupt` on one frame: a marker while in
`BOOT_COMPLETE` of a non-boot-only session advances the phase to
`UPDATE_START`; the tag byte and the NUL-stripped name are latched and
the request flag raised.  Console frames only feed `AstraConsole`. -/
def handleInterrupt (s : SessState) (f : Frame) : SessState :=
  match f with
  | .console _ => s
  | .marker tag raw =>
    let s1 :=
      if s.status = DStatus.bootComplete ∧ s.bootOnly = false then
        { s with status := DStatus.updateStart }
      else s
    { s1 with
      imageType := tag
      requestedImageName := stripTrailingNuls raw
      imageRequestReady := true }

/-- `AstraDeviceImpl::USBEventHandler` on `NO_DEVICE` /
`TRANSFER_CANCELED` / `TRANSFER_ERROR`: if the last requested image was
`gen3_miniloader.bin.usb` the disconnect is expected and only logged;
otherwise a disconnect during a progress phase turns it into the
corresponding failure, and a failure status is sent unless the phase is
a `*_COMPLETE`.  In every case `m_running` is cleared and the waiters
are notified. -/
def usbEventDisconnect (s : SessState) : SessState :=
  if s.requestedImageName = "gen3_miniloader.bin.usb" then
    { s with running := false }
  else
    let s1 :=
      if s.status = DStatus.updateProgress then
        { s with status := DStatus.updateFail }
      else if s.status = DStatus.bootProgress then
        { s with status := DStatus.bootFail }
      else s
    let s2 :=
      if s1.status ≠ DStatus.updateComplete ∧ s1.status ≠ DStatus.bootComplete then
        sendStatus s1 ⟨s1.status, 0, "", "Device disconnected"⟩
      else s1
    { s2 with running := false }

/-- The running totals at which `SendImage` emits
`IMAGE_SEND_PROGRESS`: 8 after the header write, then after every
payload block. -/
def cumTotals (blockLens : List Nat) : List Nat :=
  List.scanl (fun t l => t + l) 8 blockLens

/-- The outcome of one `AstraDeviceImpl::SendImage` call: whether it
returned 0, the status events it emitted (in order, unfiltered), and
the resulting contents of the on-disk `07_IMAGE` file. -/
structure SendOutcome where
  ok : Bool
  events : List StatusEvent
  sizeFile : Option (List Nat)
deriving DecidableEq, Repr

/-- The bytes `Image::Load` + `GetDataBlock` deliver for an image: for
`07_IMAGE` the current on-disk size file (absent before the first
write, so `Load` fails), for every other image its file contents. -/
def effectiveContents (s : SessState) (img : ImageRec) : Option (List Nat) :=
  if img.name = sizeRequestImageFilename then s.sizeFile else some img.contents

/-- `AstraDeviceImpl::SendImage` followed by
`UpdateImageSizeRequestFile`.  `Image::Load` fails when the file does
not exist, which for `07_IMAGE` means: before the first size write
(then no event at all is emitted).  `sendOk` abstracts the success of
the `USBDevice::Write` calls; a failed write is modelled at the header
write (any later failure point yields the same `ok`/status outcome).
On success the payload blocks determine the progress events, and when
the latched tag byte exceeds `0x79` the size file is overwritten with
the 4 little-endian bytes of the just-sent image's recorded size. -/
def sendImage (s : SessState) (img : ImageRec) (sendOk : Bool) : SendOutcome :=
  match effectiveContents s img with
  | none => { ok := false, events := [], sizeFile := s.sizeFile }
  | some c =>
    let isz := u32trunc c.length
    let startEv : StatusEvent := ⟨DStatus.imageSendStart, 0, img.name, ""⟩
    if sendOk then
      match sendBlocks c imageBufferSize with
      | none =>
        { ok := false
          events := [startEv,
            ⟨DStatus.imageSendFail, 0, img.name, "Failed to get data block"⟩]
          sizeFile := s.sizeFile }
      | some bs =>
        let totalSize : ℚ := ((isz + 8 : Nat) : ℚ)
        let progressEvs := (cumTotals (bs.map List.length)).map
          (fun (t : Nat) => (⟨DStatus.imageSendProgress, ((t : ℚ) / totalSize) * 100,
            img.name, ""⟩ : StatusEvent))
        { ok := true
          events := startEv :: progressEvs
            ++ [⟨DStatus.imageSendComplete, 100, img.name, ""⟩]
          sizeFile := if 0x79 < s.imageType then some (leBytes4 isz)
            else s.sizeFile }
    else
      { ok := false
        events := [startEv,
          ⟨DStatus.imageSendFail, 0, img.name, "Failed to write image"⟩]
        sizeFile := s.sizeFile }

/-- The completion-detection chain `HandleImageRequests` runs after a
successful send (`lib/astra_device.cpp`, lines 607-631): a name
containing the final boot image marks boot complete (deferred to the
size request in boot-only mode); a name containing the final update
image marks update complete immediately unless the image type is
eMMC/SPI, in which case the size-echo request is awaited; serving
`07_IMAGE` while that wait is pending marks update complete. -/
def postSendChain (s2 : SessState) (img : ImageRec) : SessState :=
  if s2.finalBootImage ≠ "" ∧ strContains img.name s2.finalBootImage then
    if s2.bootOnly = false then
      sendStatus { s2 with status := DStatus.bootComplete }
        ⟨DStatus.bootComplete, 100, "", "Success"⟩
    else
      { s2 with waitForSizeRequest := true }
  else if s2.finalUpdateImage ≠ ""
      ∧ strContains img.name s2.finalUpdateImage then
    if img.itype = ImageType.updateEmmc ∨ img.itype = ImageType.updateSpi then
      { s2 with waitForSizeRequest := true }
    else
      { s2 with status := DStatus.updateComplete }
  else if s2.waitForSizeRequest ∧ img.name = sizeRequestImageFilename then
    { s2 with status := DStatus.updateComplete, waitForSizeRequest := false }
  else s2

/-- The lookup-miss path of `HandleImageRequests` (lines 570-580): a
failure status is sent in the boot/update phases (note: `m_status`
itself is *not* assigned), a warning is only logged elsewhere, and the
loop returns -1. -/
def serveMiss (s : SessState) (name : String) : SessState :=
  let s1 :=
    if s.status = DStatus.bootStart ∨ s.status = DStatus.bootProgress then
      sendStatus s ⟨DStatus.bootFail, 0, name, name ++ " image not found"⟩
    else if s.status = DStatus.updateStart ∨ s.status = DStatus.updateProgress then
      sendStatus s ⟨DStatus.updateFail, 0, name, name ++ " image not found"⟩
    else s
  { s1 with loopDone := true }

/-- Lines 585-591: the first served request of a stage advances
`BOOT_START`/`UPDATE_START` to the matching progress phase. -/
def advanceStart (s : SessState) : SessState :=
  if s.status = DStatus.bootStart then { s with status := DStatus.bootProgress }
  else if s.status = DStatus.updateStart then
    { s with status := DStatus.updateProgress }
  else s

/-- The session state after `SendImage` ran: its status events are
delivered and the size file reflects any size-echo write. -/
def afterSend (s1 : SessState) (img : ImageRec) (sendOk : Bool) : SessState :=
  { sendStatusList s1 (sendImage s1 img sendOk).events with
    sizeFile := (sendImage s1 img sendOk).sizeFile }

/-- Lines 596-604: a failed send turns a boot phase into `BOOT_FAIL`
and an update phase into `UPDATE_FAIL`. -/
def failAfterSend (s2 : SessState) : SessState :=
  if s2.status = DStatus.bootStart ∨ s2.status = DStatus.bootProgress then
    { s2 with status := DStatus.bootFail }
  else if s2.status = DStatus.updateStart ∨ s2.status = DStatus.updateProgress then
    { s2 with status := DStatus.updateFail }
  else s2

/-- The lookup-hit path: advance the phase, send, then either run the
completion-detection chain (and count the image) or fail the stage and
return. -/
def serveFound (s : SessState) (img : ImageRec) (sendOk : Bool) : SessState :=
  let s1 := advanceStart s
  let out := sendImage s1 img sendOk
  let s2 := afterSend s1 img sendOk
  if out.ok then
    let s3 := postSendChain s2 img
    { s3 with imageCount := s3.imageCount + 1 }
  else
    let s3 := failAfterSend s2
    let s4 := sendStatus s3 ⟨s3.status, 0, img.name, "Failed to send image"⟩
    { s4 with loopDone := true }

/-- The write-back of the stripped name into `m_requestedImageName`
(lines 556-561). -/
def stripState (s0 : SessState) : SessState :=
  { s0 with requestedImageName := stripSlashPrefix s0.requestedImageName }

/-- The serve path of `HandleImageRequests` once a request is pending:
strip a leading `prefix/`, look the name up in the image list
(first match), and dispatch on the result. -/
def serveRequest (s0 : SessState) (sendOk : Bool) : SessState :=
  match (stripState s0).images.find?
      (fun img => img.name == stripSlashPrefix s0.requestedImageName) with
  | none => serveMiss (stripState s0) (stripSlashPrefix s0.requestedImageName)
  | some img => serveFound (stripState s0) img sendOk

/-- One iteration of the request-wait loop in `HandleImageRequests`:
once the loop has returned, nothing more happens; if `m_running` was
cleared the loop returns; a pending request is consumed and served;
otherwise the 10 s wait timed out, which is fatal only in
`BOOT_PROGRESS` (the status event is emitted but `m_status` is not
assigned) and is otherwise ignored (the loop re-waits). -/
def handleImageRequestsIter (s : SessState) (sendOk : Bool) : SessState :=
  if s.loopDone then s
  else if s.running = false then { s with loopDone := true }
  else if s.imageRequestReady then
    serveRequest { s with imageRequestReady := false } sendOk
  else
    if s.status = DStatus.bootProgress then
      let s1 := sendStatus s ⟨DStatus.bootFail, 0, "",
        "Timeout during boot, press RESET while holding USB_BOOT to try again"⟩
      { s1 with loopDone := true }
    else s

/-- One external happening processed by the session. -/
inductive SessEv where
  | interrupt (f : Frame)
  | disconnect
  | loopIter (sendOk : Bool)
deriving DecidableEq, Repr

/-- The session step function. -/
def step (s : SessState) (ev : SessEv) : SessState :=
  match ev with
  | .interrupt f => handleInterrupt s f
  | .disconnect => usbEventDisconnect s
  | .loopIter ok => handleImageRequestsIter s ok

/-- Run a sequence of happenings. -/
def stepMany (s : SessState) (evs : List SessEv) : SessState :=
  evs.foldl step s

/-- The image-list preparation of `AstraDeviceImpl::Boot` (after the
USB open): record console/uEnv/final-boot-image from the bundle, add a
synthesized `uEnv.txt` when the bundle has none and uEnv is supported
(an empty boot command additionally redirects the final boot image to
`uEnv.txt`), redirect the final boot image to `uEnv.txt` for update
sessions over a Linux-boot bundle, and append the `06_IMAGE` (USB
path) and `07_IMAGE` (size-request) images.  The session starts in
`BOOT_START` with the request thread ready. -/
def bootInit (bootImages : List ImageRec) (uEnvSupport : Bool)
    (console : UbootConsole) (finalBootImage0 : String) (isLinuxBoot : Bool)
    (bootOnly : Bool) (bootCommand : String) (devPath : String) : SessState :=
  let hasUEnv := bootImages.any (fun img => img.name == uEnvFilename)
  let addUEnv := hasUEnv = false ∧ uEnvSupport = true
  let finalBoot1 :=
    if addUEnv then
      (if bootCommand = "" then uEnvFilename else finalBootImage0)
    else finalBootImage0
  let imgs1 :=
    if addUEnv then
      bootImages ++ [⟨uEnvFilename, ImageType.boot,
        strBytes ("bootcmd=" ++ bootCommand)⟩]
    else bootImages
  let finalBoot2 :=
    if bootOnly = false ∧ isLinuxBoot = true then uEnvFilename else finalBoot1
  { status := DStatus.bootStart
    running := true
    loopDone := false
    bootOnly := bootOnly
    uEnvSupport := uEnvSupport
    console := console
    resetWhenComplete := false
    finalBootImage := finalBoot2
    finalUpdateImage := ""
    waitForSizeRequest := false
    imageRequestReady := false
    imageType := 0
    requestedImageName := ""
    images := imgs1 ++ [⟨usbPathImageFilename, ImageType.boot, strBytes devPath⟩,
      ⟨sizeRequestImageFilename, ImageType.updateEmmc, []⟩]
    sizeFile := none
    imageCount := 0
    emitted := [] }

/-- `AstraDeviceImpl::Update`: record the flash plan's final image and
reset policy and append its images to the served list.  (The
console-command injection for non-uEnv USB-console sessions writes to
the interrupt-out endpoint and does not touch this state.) -/
def updateInit (s : SessState) (flashImages : List ImageRec)
    (finalImage : String) (reset : Bool) : SessState :=
  { s with
    finalUpdateImage := finalImage
    resetWhenComplete := reset
    images := s.images ++ flashImages }

/-- The status events `AstraDeviceImpl::WaitForCompletion` emits at its
final wake-up, once `m_running` is false: in the uEnv/UART branch a
success event is sent iff the phase matches the session mode
(`BOOT_COMPLETE` for boot-only, `UPDATE_COMPLETE` otherwise); in the
USB-console branch a success event is sent iff the U-Boot prompt
returned (`promptOk`) and the phase is `UPDATE_COMPLETE`. -/
def waitForCompletionFinal (s : SessState) (promptOk : Bool) : List StatusEvent :=
  if s.uEnvSupport = true ∨ s.console = UbootConsole.uart then
    if s.bootOnly then
      (if s.status = DStatus.bootComplete then
        [⟨DStatus.bootComplete, 100, "", "Success"⟩] else [])
    else
      (if s.status = DStatus.updateComplete then
        [⟨DStatus.updateComplete, 100, "", "Success"⟩] else [])
  else
    if promptOk then
      (if s.status = DStatus.updateComplete then
        [⟨DStatus.updateComplete, 100, "", "Success"⟩] else [])
    else []

/-- All status events the user sees from a finished session: the
request-path events plus the final `WaitForCompletion` wake-up. -/
def sessionEmitted (s : SessState) (promptOk : Bool) : List StatusEvent :=
  s.emitted ++ waitForCompletionFinal s promptOk

/-- The invariant the code maintains around `*_FAIL` phases: whenever
the stored phase is a failure, the request-serving loop has returned or
`m_running` has been cleared (every code path that stores a failure
phase also does one of the two). -/
def FailGuard (s : SessState) : Prop :=
  (s.status = DStatus.bootFail ∨ s.status = DStatus.updateFail) →
    (s.loopDone = true ∨ s.running = false)

/-- A convenient fully-explicit session state for concrete runs:
`BOOT_START`, running, loop live, no pending request. -/
def baseState : SessState :=
  { status := DStatus.bootStart
    running := true
    loopDone := false
    bootOnly := false
    uEnvSupport := false
    console := UbootConsole.usb
    resetWhenComplete := false
    finalBootImage := ""
    finalUpdateImage := ""
    waitForSizeRequest := false
    imageRequestReady := false
    imageType := 0
    requestedImageName := ""
    images := []
    sizeFile := none
    imageCount := 0
    emitted := [] }

/-- The scenario S1 session: boot-only, `uenv_support = true`, no
`uEnv.txt` in the bundle, empty caller boot command. -/
def s1BootInit : SessState :=
  bootInit [⟨"gen3_hwinit.bin", ImageType.boot, [1, 2]⟩] true UbootConsole.usb
    "gen3_uboot.bin.usb" false true "" "1-2.3"

/-- The scenario S1 run: the device requests the synthesized
`uEnv.txt`, the host serves it, and the device leaves USB-download
mode (disconnect). -/
def s1Trace : List SessEv :=
  [SessEv.interrupt (Frame.marker 0x61 "uEnv.txt"), SessEv.loopIter true,
    SessEv.disconnect]

theorem leBytes4_length (n : Nat) : (leBytes4 n).length = 4 := rfl

/-- At a position inside the file, `GetDataBlock` reads
`min (imageSize - pos) cap` bytes from position `pos`. -/
theorem getDataBlock_at (contents : List Nat) (pos cap : Nat)
    (hpos : pos ≤ contents.length) :
    getDataBlock contents contents.length pos cap
      = (contents.drop pos).take (min (contents.length - pos) cap) := by
  simp only [getDataBlock]
  have h2 : (if contents.length < pos
        + (if contents.length < cap then contents.length else cap)
      then contents.length - pos
      else if contents.length < cap then contents.length else cap)
      = min (contents.length - pos) cap := by
    by_cases h1 : contents.length < cap
    · simp only [if_pos h1]
      by_cases h3 : contents.length < pos + contents.length
      · simp only [if_pos h3]
        omega
      · simp only [if_neg h3]
        omega
    · simp only [if_neg h1]
      by_cases h3 : contents.length < pos + cap
      · simp only [if_pos h3]
        omega
      · simp only [if_neg h3]
        omega
  rw [h2]

/-- Correctness of the send loop: starting at position `pos ≤ imageSize`
with `total = pos + 8` and enough fuel, the loop terminates and its
blocks concatenate to exactly the remaining `imageSize - pos` file
bytes. -/
theorem sendLoop_correct (contents : List Nat) (bufSize : Nat)
    (hbuf : 0 < bufSize) :
    ∀ fuel pos, pos ≤ contents.length → contents.length - pos ≤ fuel →
      ∃ bs, sendLoop contents contents.length bufSize (contents.length + 8)
          fuel pos (pos + 8) = some bs ∧ bs.flatten = contents.drop pos := by
  intro fuel
  induction fuel with
  | zero =>
    intro pos hpos hfuel
    have heq : pos = contents.length := by omega
    subst heq
    rw [sendLoop]
    refine ⟨[], ?_, ?_⟩
    · simp
    · simp
  | succ fuel ih =>
    intro pos hpos hfuel
    rw [sendLoop]
    by_cases hlt : pos + 8 < contents.length + 8
    · have hposlt : pos < contents.length := by omega
      simp only [if_pos hlt]
      rw [getDataBlock_at contents pos bufSize hpos]
      have hlen : ((contents.drop pos).take
          (min (contents.length - pos) bufSize)).length
          = min (contents.length - pos) bufSize := by
        simp only [List.length_take, List.length_drop]
        omega
      rw [hlen]
      have hr2pos : 0 < min (contents.length - pos) bufSize := by omega
      have hr2le : pos + min (contents.length - pos) bufSize
          ≤ contents.length := by omega
      rw [show pos + 8 + min (contents.length - pos) bufSize
          = (pos + min (contents.length - pos) bufSize) + 8 by omega]
      obtain ⟨bs, hbs, hjoin⟩ :=
        ih (pos + min (contents.length - pos) bufSize) (by omega) (by omega)
      rw [hbs]
      refine ⟨(contents.drop pos).take (min (contents.length - pos) bufSize)
        :: bs, by simp, ?_⟩
      rw [List.flatten_cons, hjoin]
      have hdd : List.drop (pos + min (contents.length - pos) bufSize) contents
          = List.drop (min (contents.length - pos) bufSize)
            (List.drop pos contents) := by
        rw [List.drop_drop]
      rw [hdd, List.take_append_drop]
    · simp only [if_neg hlt]
      have : pos = contents.length := by omega
      subst this
      exact ⟨[], rfl, by simp⟩

/-! ## Frame lemmas: `SendStatus` only appends to the event list -/

theorem sendStatus_status (s : SessState) (ev : StatusEvent) :
    (sendStatus s ev).status = s.status := by
  unfold sendStatus
  split <;> rfl

theorem sendStatus_loopDone (s : SessState) (ev : StatusEvent) :
    (sendStatus s ev).loopDone = s.loopDone := by
  unfold sendStatus
  split <;> rfl

theorem sendStatus_running (s : SessState) (ev : StatusEvent) :
    (sendStatus s ev).running = s.running := by
  unfold sendStatus
  split <;> rfl

theorem sendStatus_bootOnly (s : SessState) (ev : StatusEvent) :
    (sendStatus s ev).bootOnly = s.bootOnly := by
  unfold sendStatus
  split <;> rfl

theorem sendStatus_waitForSizeRequest (s : SessState) (ev : StatusEvent) :
    (sendStatus s ev).waitForSizeRequest = s.waitForSizeRequest := by
  unfold sendStatus
  split <;> rfl

theorem sendStatus_finalBootImage (s : SessState) (ev : StatusEvent) :
    (sendStatus s ev).finalBootImage = s.finalBootImage := by
  unfold sendStatus
  split <;> rfl

theorem sendStatus_finalUpdateImage (s : SessState) (ev : StatusEvent) :
    (sendStatus s ev).finalUpdateImage = s.finalUpdateImage := by
  unfold sendStatus
  split <;> rfl

theorem sendStatus_images (s : SessState) (ev : StatusEvent) :
    (sendStatus s ev).images = s.images := by
  unfold sendStatus
  split <;> rfl

theorem sendStatusList_status (s : SessState) (evs : List StatusEvent) :
    (sendStatusList s evs).status = s.status := by
  induction evs generalizing s with
  | nil => rfl
  | cons e t ih =>
    rw [show sendStatusList s (e :: t) = sendStatusList (sendStatus s e) t
      from rfl, ih, sendStatus_status]

theorem sendStatusList_loopDone (s : SessState) (evs : List StatusEvent) :
    (sendStatusList s evs).loopDone = s.loopDone := by
  induction evs generalizing s with
  | nil => rfl
  | cons e t ih =>
    rw [show sendStatusList s (e :: t) = sendStatusList (sendStatus s e) t
      from rfl, ih, sendStatus_loopDone]

theorem sendStatusList_running (s : SessState) (evs : List StatusEvent) :
    (sendStatusList s evs).running = s.running := by
  induction evs generalizing s with
  | nil => rfl
  | cons e t ih =>
    rw [show sendStatusList s (e :: t) = sendStatusList (sendStatus s e) t
      from rfl, ih, sendStatus_running]

theorem sendStatusList_bootOnly (s : SessState) (evs : List StatusEvent) :
    (sendStatusList s evs).bootOnly = s.bootOnly := by
  induction evs generalizing s with
  | nil => rfl
  | cons e t ih =>
    rw [show sendStatusList s (e :: t) = sendStatusList (sendStatus s e) t
      from rfl, ih, sendStatus_bootOnly]

theorem sendStatusList_waitForSizeRequest (s : SessState) (evs : List StatusEvent) :
    (sendStatusList s evs).waitForSizeRequest = s.waitForSizeRequest := by
  induction evs generalizing s with
  | nil => rfl
  | cons e t ih =>
    rw [show sendStatusList s (e :: t) = sendStatusList (sendStatus s e) t
      from rfl, ih, sendStatus_waitForSizeRequest]

theorem sendStatusList_finalBootImage (s : SessState) (evs : List StatusEvent) :
    (sendStatusList s evs).finalBootImage = s.finalBootImage := by
  induction evs generalizing s with
  | nil => rfl
  | cons e t ih =>
    rw [show sendStatusList s (e :: t) = sendStatusList (sendStatus s e) t
      from rfl, ih, sendStatus_finalBootImage]

theorem sendStatusList_finalUpdateImage (s : SessState) (evs : List StatusEvent) :
    (sendStatusList s evs).finalUpdateImage = s.finalUpdateImage := by
  induction evs generalizing s with
  | nil => rfl
  | cons e t ih =>
    rw [show sendStatusList s (e :: t) = sendStatusList (sendStatus s e) t
      from rfl, ih, sendStatus_finalUpdateImage]

theorem sendStatusList_images (s : SessState) (evs : List StatusEvent) :
    (sendStatusList s evs).images = s.images := by
  induction evs generalizing s with
  | nil => rfl
  | cons e t ih =>
    rw [show sendStatusList s (e :: t) = sendStatusList (sendStatus s e) t
      from rfl, ih, sendStatus_images]

/-- The post-send chain can only leave the phase alone or set it to a
`*_COMPLETE` value. -/
theorem postSendChain_status_cases (s2 : SessState) (img : ImageRec) :
    (postSendChain s2 img).status = DStatus.bootComplete
    ∨ (postSendChain s2 img).status = DStatus.updateComplete
    ∨ (postSendChain s2 img).status = s2.status := by
  unfold postSendChain
  split_ifs
  · left
    rw [sendStatus_status]
  · right
    right
    rfl
  · right
    right
    rfl
  · right
    left
    rfl
  · right
    left
    rfl
  · right
    right
    rfl

/-! ## Serve-path lemmas -/

theorem serveMiss_loopDone (s : SessState) (name : String) :
    (serveMiss s name).loopDone = true := by
  unfold serveMiss
  split_ifs <;> rfl

theorem serveMiss_status (s : SessState) (name : String) :
    (serveMiss s name).status = s.status := by
  unfold serveMiss
  split_ifs
  · exact sendStatus_status _ _
  · exact sendStatus_status _ _
  · rfl

theorem serveMiss_bootOnly (s : SessState) (name : String) :
    (serveMiss s name).bootOnly = s.bootOnly := by
  unfold serveMiss
  split_ifs
  · exact sendStatus_bootOnly _ _
  · exact sendStatus_bootOnly _ _
  · rfl

theorem advanceStart_status_cases (s : SessState) :
    (advanceStart s).status = DStatus.bootProgress
    ∨ (advanceStart s).status = DStatus.updateProgress
    ∨ (advanceStart s).status = s.status := by
  unfold advanceStart
  split_ifs
  · exact Or.inl rfl
  · exact Or.inr (Or.inl rfl)
  · exact Or.inr (Or.inr rfl)

theorem advanceStart_bootOnly (s : SessState) :
    (advanceStart s).bootOnly = s.bootOnly := by
  unfold advanceStart
  split_ifs <;> rfl

theorem advanceStart_loopDone (s : SessState) :
    (advanceStart s).loopDone = s.loopDone := by
  unfold advanceStart
  split_ifs <;> rfl

theorem advanceStart_running (s : SessState) :
    (advanceStart s).running = s.running := by
  unfold advanceStart
  split_ifs <;> rfl

theorem advanceStart_images (s : SessState) :
    (advanceStart s).images = s.images := by
  unfold advanceStart
  split_ifs <;> rfl

theorem advanceStart_finalBootImage (s : SessState) :
    (advanceStart s).finalBootImage = s.finalBootImage := by
  unfold advanceStart
  split_ifs <;> rfl

theorem advanceStart_finalUpdateImage (s : SessState) :
    (advanceStart s).finalUpdateImage = s.finalUpdateImage := by
  unfold advanceStart
  split_ifs <;> rfl

theorem advanceStart_waitForSizeRequest (s : SessState) :
    (advanceStart s).waitForSizeRequest = s.waitForSizeRequest := by
  unfold advanceStart
  split_ifs <;> rfl

theorem afterSend_status (s1 : SessState) (img : ImageRec) (sendOk : Bool) :
    (afterSend s1 img sendOk).status = s1.status :=
  sendStatusList_status s1 (sendImage s1 img sendOk).events

theorem afterSend_loopDone (s1 : SessState) (img : ImageRec) (sendOk : Bool) :
    (afterSend s1 img sendOk).loopDone = s1.loopDone :=
  sendStatusList_loopDone s1 (sendImage s1 img sendOk).events

theorem afterSend_running (s1 : SessState) (img : ImageRec) (sendOk : Bool) :
    (afterSend s1 img sendOk).running = s1.running :=
  sendStatusList_running s1 (sendImage s1 img sendOk).events

theorem afterSend_bootOnly (s1 : SessState) (img : ImageRec) (sendOk : Bool) :
    (afterSend s1 img sendOk).bootOnly = s1.bootOnly :=
  sendStatusList_bootOnly s1 (sendImage s1 img sendOk).events

theorem afterSend_waitForSizeRequest (s1 : SessState) (img : ImageRec)
    (sendOk : Bool) :
    (afterSend s1 img sendOk).waitForSizeRequest = s1.waitForSizeRequest :=
  sendStatusList_waitForSizeRequest s1 (sendImage s1 img sendOk).events

theorem afterSend_finalBootImage (s1 : SessState) (img : ImageRec) (sendOk : Bool) :
    (afterSend s1 img sendOk).finalBootImage = s1.finalBootImage :=
  sendStatusList_finalBootImage s1 (sendImage s1 img sendOk).events

theorem afterSend_finalUpdateImage (s1 : SessState) (img : ImageRec)
    (sendOk : Bool) :
    (afterSend s1 img sendOk).finalUpdateImage = s1.finalUpdateImage :=
  sendStatusList_finalUpdateImage s1 (sendImage s1 img sendOk).events

theorem afterSend_images (s1 : SessState) (img : ImageRec) (sendOk : Bool) :
    (afterSend s1 img sendOk).images = s1.images :=
  sendStatusList_images s1 (sendImage s1 img sendOk).events

theorem failAfterSend_status_cases (s2 : SessState) :
    (failAfterSend s2).status = DStatus.bootFail
    ∨ (failAfterSend s2).status = DStatus.updateFail
    ∨ (failAfterSend s2).status = s2.status := by
  unfold failAfterSend
  split_ifs
  · exact Or.inl rfl
  · exact Or.inr (Or.inl rfl)
  · exact Or.inr (Or.inr rfl)

theorem serveFound_ok_eq (s : SessState) (img : ImageRec) (sendOk : Bool)
    (h : (sendImage (advanceStart s) img sendOk).ok = true) :
    serveFound s img sendOk
      = { postSendChain (afterSend (advanceStart s) img sendOk) img with
          imageCount :=
            (postSendChain (afterSend (advanceStart s) img sendOk) img).imageCount
              + 1 } := by
  unfold serveFound
  simp only [h, if_true]

theorem serveFound_fail_eq (s : SessState) (img : ImageRec) (sendOk : Bool)
    (h : (sendImage (advanceStart s) img sendOk).ok = false) :
    serveFound s img sendOk
      = { sendStatus (failAfterSend (afterSend (advanceStart s) img sendOk))
            ⟨(failAfterSend (afterSend (advanceStart s) img sendOk)).status, 0,
              img.name, "Failed to send image"⟩ with
          loopDone := true } := by
  unfold serveFound
  simp only [h, Bool.false_eq_true, if_false]

/-- A successful-path serve never produces a `*_FAIL` phase; the
failing paths all make the loop return. -/
theorem serveFound_guard (s : SessState) (img : ImageRec) (sendOk : Bool)
    (hs1 : s.status ≠ DStatus.bootFail) (hs2 : s.status ≠ DStatus.updateFail) :
    ((serveFound s img sendOk).status = DStatus.bootFail
      ∨ (serveFound s img sendOk).status = DStatus.updateFail) →
    (serveFound s img sendOk).loopDone = true := by
  intro hf
  cases hok : (sendImage (advanceStart s) img sendOk).ok with
  | false =>
    rw [serveFound_fail_eq s img sendOk hok]
  | true =>
    exfalso
    rw [serveFound_ok_eq s img sendOk hok] at hf
    have hf' : (postSendChain (afterSend (advanceStart s) img sendOk) img).status
          = DStatus.bootFail
        ∨ (postSendChain (afterSend (advanceStart s) img sendOk) img).status
          = DStatus.updateFail := hf
    have hbase : (afterSend (advanceStart s) img sendOk).status ≠ DStatus.bootFail
        ∧ (afterSend (advanceStart s) img sendOk).status ≠ DStatus.updateFail := by
      rw [afterSend_status]
      rcases advanceStart_status_cases s with h | h | h <;> rw [h]
      · exact ⟨by decide, by decide⟩
      · exact ⟨by decide, by decide⟩
      · exact ⟨hs1, hs2⟩
    rcases postSendChain_status_cases (afterSend (advanceStart s) img sendOk) img
        with h | h | h <;> rw [h] at hf'
    · rcases hf' with h2 | h2 <;> exact absurd h2 (by decide)
    · rcases hf' with h2 | h2 <;> exact absurd h2 (by decide)
    · rcases hf' with h2 | h2
      · exact hbase.1 h2
      · exact hbase.2 h2

/-- `serveRequest` version of the guard. -/
theorem serveRequest_fail_loopDone (s : SessState) (sendOk : Bool)
    (hs1 : s.status ≠ DStatus.bootFail) (hs2 : s.status ≠ DStatus.updateFail) :
    ((serveRequest s sendOk).status = DStatus.bootFail
      ∨ (serveRequest s sendOk).status = DStatus.updateFail) →
    (serveRequest s sendOk).loopDone = true := by
  rcases hfind : List.find?
      (fun img => img.name == stripSlashPrefix s.requestedImageName)
      (stripState s).images
    with _ | img
  · simp only [serveRequest, hfind]
    intro _
    exact serveMiss_loopDone _ _
  · simp only [serveRequest, hfind]
    intro hf
    exact serveFound_guard _ img sendOk hs1 hs2 hf

/-- In a guarded state, a failure phase survives any step unchanged. -/
theorem step_fail_frozen (s : SessState) (ev : SessEv) (hg : FailGuard s)
    (hf : s.status = DStatus.bootFail ∨ s.status = DStatus.updateFail) :
    (step s ev).status = s.status := by
  cases ev with
  | interrupt f =>
    cases f with
    | console t => rfl
    | marker tag raw =>
      show (handleInterrupt s (Frame.marker tag raw)).status = s.status
      unfold handleInterrupt
      rw [if_neg]
      intro hc
      rcases hf with hf | hf <;> rw [hf] at hc <;> exact absurd hc.1 (by decide)
  | disconnect =>
    show (usbEventDisconnect s).status = s.status
    unfold usbEventDisconnect
    split
    · rfl
    · rcases hf with hf | hf <;>
        simp [hf, sendStatus, sizeRequestImageFilename]
  | loopIter ok =>
    show (handleImageRequestsIter s ok).status = s.status
    rcases hg hf with hd | hr
    · simp [handleImageRequestsIter, hd]
    · cases hb : s.loopDone with
      | true => simp [handleImageRequestsIter, hb]
      | false => simp [handleImageRequestsIter, hb, hr]

/-- The fail-guard invariant is preserved by every step. -/
theorem step_failGuard (s : SessState) (ev : SessEv) (hg : FailGuard s) :
    FailGuard (step s ev) := by
  cases ev with
  | interrupt f =>
    cases f with
    | console t => exact hg
    | marker tag raw =>
      show FailGuard (handleInterrupt s (Frame.marker tag raw))
      simp only [handleInterrupt]
      split
      · intro hf
        have hf' : DStatus.updateStart = DStatus.bootFail
            ∨ DStatus.updateStart = DStatus.updateFail := hf
        rcases hf' with h | h <;> exact absurd h (by decide)
      · intro hf
        exact hg hf
  | disconnect =>
    intro _
    right
    show (usbEventDisconnect s).running = false
    unfold usbEventDisconnect
    split
    · rfl
    · rfl
  | loopIter ok =>
    show FailGuard (handleImageRequestsIter s ok)
    cases hb : s.loopDone with
    | true =>
      have heq : handleImageRequestsIter s ok = s := by
        simp [handleImageRequestsIter, hb]
      rw [heq]
      exact hg
    | false =>
      cases hrun : s.running with
      | false =>
        have heq : handleImageRequestsIter s ok = { s with loopDone := true } := by
          simp [handleImageRequestsIter, hb, hrun]
        rw [heq]
        intro _
        exact Or.inl rfl
      | true =>
        have hnf1 : s.status ≠ DStatus.bootFail := by
          intro hc
          rcases hg (Or.inl hc) with h | h
          · rw [hb] at h
            exact absurd h (by decide)
          · rw [hrun] at h
            exact absurd h (by decide)
        have hnf2 : s.status ≠ DStatus.updateFail := by
          intro hc
          rcases hg (Or.inr hc) with h | h
          · rw [hb] at h
            exact absurd h (by decide)
          · rw [hrun] at h
            exact absurd h (by decide)
        cases hready : s.imageRequestReady with
        | true =>
          have heq : handleImageRequestsIter s ok
              = serveRequest { s with imageRequestReady := false } ok := by
            simp [handleImageRequestsIter, hb, hrun, hready]
          rw [heq]
          intro hf
          exact Or.inl (serveRequest_fail_loopDone
            { s with imageRequestReady := false } ok hnf1 hnf2 hf)
        | false =>
          by_cases hbp : s.status = DStatus.bootProgress
          · have heq : handleImageRequestsIter s ok
                = { sendStatus s ⟨DStatus.bootFail, 0, "",
                    "Timeout during boot, press RESET while holding USB_BOOT to try again"⟩
                    with loopDone := true } := by
              simp [handleImageRequestsIter, hb, hrun, hready, hbp]
            rw [heq]
            intro _
            exact Or.inl rfl
          · have heq : handleImageRequestsIter s ok = s := by
              simp [handleImageRequestsIter, hb, hrun, hready, hbp]
            rw [heq]
            exact hg

/-- The fail-guard invariant holds along any run. -/
theorem stepMany_failGuard (s : SessState) (evs : List SessEv)
    (hg : FailGuard s) : FailGuard (stepMany s evs) := by
  induction evs generalizing s with
  | nil => exact hg
  | cons e t ih =>
    exact ih (step s e) (step_failGuard s e hg)

theorem failAfterSend_bootOnly (s2 : SessState) :
    (failAfterSend s2).bootOnly = s2.bootOnly := by
  unfold failAfterSend
  split_ifs <;> rfl

theorem postSendChain_bootOnly (s2 : SessState) (img : ImageRec) :
    (postSendChain s2 img).bootOnly = s2.bootOnly := by
  unfold postSendChain
  split_ifs
  · exact sendStatus_bootOnly _ _
  · rfl
  · rfl
  · rfl
  · rfl
  · rfl

/-- With `bootOnly = true`, the post-send chain can only set
`UPDATE_COMPLETE` or keep the phase: the `BOOT_COMPLETE` assignment is
guarded by `!m_bootOnly`. -/
theorem postSendChain_bootOnly_status (s2 : SessState) (img : ImageRec)
    (hb : s2.bootOnly = true) :
    (postSendChain s2 img).status = DStatus.updateComplete
    ∨ (postSendChain s2 img).status = s2.status := by
  unfold postSendChain
  split_ifs with h1 h2 h3 h4 h5
  · rw [hb] at h2
    exact absurd h2 (by decide)
  · exact Or.inr rfl
  · exact Or.inr rfl
  · exact Or.inl rfl
  · exact Or.inl rfl
  · exact Or.inr rfl

theorem usbEventDisconnect_status_cases (s : SessState) :
    (usbEventDisconnect s).status = DStatus.updateFail
    ∨ (usbEventDisconnect s).status = DStatus.bootFail
    ∨ (usbEventDisconnect s).status = s.status := by
  simp only [usbEventDisconnect]
  split
  · exact Or.inr (Or.inr rfl)
  · split_ifs <;>
      first
        | exact Or.inl (sendStatus_status _ _)
        | exact Or.inl rfl
        | exact Or.inr (Or.inl (sendStatus_status _ _))
        | exact Or.inr (Or.inl rfl)
        | exact Or.inr (Or.inr (sendStatus_status _ _))
        | exact Or.inr (Or.inr rfl)

theorem usbEventDisconnect_bootOnly (s : SessState) :
    (usbEventDisconnect s).bootOnly = s.bootOnly := by
  simp only [usbEventDisconnect]
  split
  · rfl
  · split_ifs <;>
      first
        | exact sendStatus_bootOnly _ _
        | rfl

theorem serveFound_bootOnly (s : SessState) (img : ImageRec) (sendOk : Bool) :
    (serveFound s img sendOk).bootOnly = s.bootOnly := by
  cases hok : (sendImage (advanceStart s) img sendOk).ok with
  | false =>
    rw [serveFound_fail_eq s img sendOk hok]
    have h1 : (sendStatus (failAfterSend (afterSend (advanceStart s) img sendOk))
        ⟨(failAfterSend (afterSend (advanceStart s) img sendOk)).status, 0,
          img.name, "Failed to send image"⟩).bootOnly
        = (failAfterSend (afterSend (advanceStart s) img sendOk)).bootOnly :=
      sendStatus_bootOnly _ _
    rw [show ({ sendStatus (failAfterSend (afterSend (advanceStart s) img sendOk))
        ⟨(failAfterSend (afterSend (advanceStart s) img sendOk)).status, 0,
          img.name, "Failed to send image"⟩ with loopDone := true } : SessState).bootOnly
        = (sendStatus (failAfterSend (afterSend (advanceStart s) img sendOk))
        ⟨(failAfterSend (afterSend (advanceStart s) img sendOk)).status, 0,
          img.name, "Failed to send image"⟩).bootOnly from rfl]
    rw [h1, failAfterSend_bootOnly, afterSend_bootOnly, advanceStart_bootOnly]
  | true =>
    rw [serveFound_ok_eq s img sendOk hok]
    rw [show ({ postSendChain (afterSend (advanceStart s) img sendOk) img with
        imageCount :=
          (postSendChain (afterSend (advanceStart s) img sendOk) img).imageCount
            + 1 } : SessState).bootOnly
        = (postSendChain (afterSend (advanceStart s) img sendOk) img).bootOnly
        from rfl]
    rw [postSendChain_bootOnly, afterSend_bootOnly, advanceStart_bootOnly]

theorem serveRequest_bootOnly (s : SessState) (sendOk : Bool) :
    (serveRequest s sendOk).bootOnly = s.bootOnly := by
  rcases hfind : List.find?
      (fun img => img.name == stripSlashPrefix s.requestedImageName)
      (stripState s).images
    with _ | img
  · simp only [serveRequest, hfind]
    exact serveMiss_bootOnly _ _
  · simp only [serveRequest, hfind]
    exact serveFound_bootOnly _ img sendOk

theorem step_bootOnly (s : SessState) (ev : SessEv) :
    (step s ev).bootOnly = s.bootOnly := by
  cases ev with
  | interrupt f =>
    cases f with
    | console t => rfl
    | marker tag raw =>
      show (handleInterrupt s (Frame.marker tag raw)).bootOnly = s.bootOnly
      simp only [handleInterrupt]
      split <;> rfl
  | disconnect => exact usbEventDisconnect_bootOnly s
  | loopIter ok =>
    show (handleImageRequestsIter s ok).bootOnly = s.bootOnly
    unfold handleImageRequestsIter
    split_ifs <;>
      first
        | rfl
        | exact serveRequest_bootOnly _ ok

/-- With `bootOnly = true`, no serve can set `BOOT_COMPLETE`. -/
theorem serveFound_no_bootComplete (s : SessState) (img : ImageRec)
    (sendOk : Bool) (hb : s.bootOnly = true)
    (hnc : s.status ≠ DStatus.bootComplete) :
    (serveFound s img sendOk).status ≠ DStatus.bootComplete := by
  have hbase : (afterSend (advanceStart s) img sendOk).status
      ≠ DStatus.bootComplete := by
    rw [afterSend_status]
    rcases advanceStart_status_cases s with h | h | h <;> rw [h]
    · decide
    · decide
    · exact hnc
  cases hok : (sendImage (advanceStart s) img sendOk).ok with
  | false =>
    rw [serveFound_fail_eq s img sendOk hok]
    intro hc
    have hc' : (sendStatus (failAfterSend (afterSend (advanceStart s) img sendOk))
        ⟨(failAfterSend (afterSend (advanceStart s) img sendOk)).status, 0,
          img.name, "Failed to send image"⟩).status = DStatus.bootComplete := hc
    rw [sendStatus_status] at hc'
    rcases failAfterSend_status_cases (afterSend (advanceStart s) img sendOk)
        with h | h | h <;> rw [h] at hc'
    · exact absurd hc' (by decide)
    · exact absurd hc' (by decide)
    · exact hbase hc'
  | true =>
    rw [serveFound_ok_eq s img sendOk hok]
    intro hc
    have hc' : (postSendChain (afterSend (advanceStart s) img sendOk) img).status
        = DStatus.bootComplete := hc
    have hb2 : (afterSend (advanceStart s) img sendOk).bootOnly = true := by
      rw [afterSend_bootOnly, advanceStart_bootOnly, hb]
    rcases postSendChain_bootOnly_status (afterSend (advanceStart s) img sendOk)
        img hb2 with h | h <;> rw [h] at hc'
    · exact absurd hc' (by decide)
    · exact hbase hc'

theorem serveRequest_no_bootComplete (s : SessState) (sendOk : Bool)
    (hb : s.bootOnly = true) (hnc : s.status ≠ DStatus.bootComplete) :
    (serveRequest s sendOk).status ≠ DStatus.bootComplete := by
  rcases hfind : List.find?
      (fun img => img.name == stripSlashPrefix s.requestedImageName)
      (stripState s).images
    with _ | img
  · simp only [serveRequest, hfind]
    rw [serveMiss_status]
    exact hnc
  · simp only [serveRequest, hfind]
    exact serveFound_no_bootComplete _ img sendOk hb hnc

/-- In boot-only mode no step ever stores `BOOT_COMPLETE`. -/
theorem step_no_bootComplete (s : SessState) (ev : SessEv)
    (hb : s.bootOnly = true) (hnc : s.status ≠ DStatus.bootComplete) :
    (step s ev).status ≠ DStatus.bootComplete := by
  cases ev with
  | interrupt f =>
    cases f with
    | console t => exact hnc
    | marker tag raw =>
      show (handleInterrupt s (Frame.marker tag raw)).status ≠ DStatus.bootComplete
      simp only [handleInterrupt]
      split
      · intro hc
        have hc' : DStatus.updateStart = DStatus.bootComplete := hc
        exact absurd hc' (by decide)
      · exact hnc
  | disconnect =>
    show (usbEventDisconnect s).status ≠ DStatus.bootComplete
    rcases usbEventDisconnect_status_cases s with h | h | h <;> rw [h]
    · decide
    · decide
    · exact hnc
  | loopIter ok =>
    show (handleImageRequestsIter s ok).status ≠ DStatus.bootComplete
    unfold handleImageRequestsIter
    split_ifs with h1 h2 h3 h4
    · exact hnc
    · exact hnc
    · exact serveRequest_no_bootComplete _ ok hb hnc
    · intro hc
      exact hnc ((sendStatus_status _ _).symm.trans hc)
    · exact hnc

/-- How `UPDATE_COMPLETE` can come out of the post-send chain: a
final-update match of non-flash type, the size-echo serve, or it was
already there. -/
theorem postSendChain_updateComplete_cases (s2 : SessState) (img : ImageRec)
    (h : (postSendChain s2 img).status = DStatus.updateComplete) :
    (s2.finalUpdateImage ≠ "" ∧ strContains img.name s2.finalUpdateImage = true
      ∧ ¬(img.itype = ImageType.updateEmmc ∨ img.itype = ImageType.updateSpi))
    ∨ (s2.waitForSizeRequest = true ∧ img.name = sizeRequestImageFilename)
    ∨ s2.status = DStatus.updateComplete := by
  unfold postSendChain at h
  split_ifs at h with h1 h2 h3 h4 h5
  · rw [sendStatus_status] at h
    have h' : DStatus.bootComplete = DStatus.updateComplete := h
    exact absurd h' (by decide)
  · exact Or.inr (Or.inr h)
  · exact Or.inr (Or.inr h)
  · exact Or.inl ⟨h3.1, h3.2, h4⟩
  · exact Or.inr (Or.inl h5)
  · exact Or.inr (Or.inr h)

/-- If a serve sets `UPDATE_COMPLETE` and every image matching the
final update image has eMMC/SPI type, the served request was the
size-echo file `07_IMAGE`. -/
theorem serveRequest_updateComplete (s : SessState) (sendOk : Bool)
    (htyped : ∀ img ∈ s.images, s.finalUpdateImage ≠ "" →
      strContains img.name s.finalUpdateImage = true →
      (img.itype = ImageType.updateEmmc ∨ img.itype = ImageType.updateSpi))
    (hnc : s.status ≠ DStatus.updateComplete)
    (hc : (serveRequest s sendOk).status = DStatus.updateComplete) :
    stripSlashPrefix s.requestedImageName = sizeRequestImageFilename := by
  rcases hfind : List.find?
      (fun img => img.name == stripSlashPrefix s.requestedImageName)
      (stripState s).images
    with _ | img
  · exfalso
    have hserve : serveRequest s sendOk
        = serveMiss (stripState s) (stripSlashPrefix s.requestedImageName) := by
      simp only [serveRequest, hfind]
    rw [hserve, serveMiss_status] at hc
    exact hnc hc
  · have hpred := List.find?_some hfind
    have himgname : img.name = stripSlashPrefix s.requestedImageName :=
      eq_of_beq hpred
    have himgmem : img ∈ s.images := List.mem_of_find?_eq_some hfind
    have hserve : serveRequest s sendOk
        = serveFound (stripState s) img sendOk := by
      simp only [serveRequest, hfind]
    have hc' : (serveFound (stripState s) img sendOk).status
        = DStatus.updateComplete := by
      rw [hserve] at hc
      exact hc
    cases hok : (sendImage (advanceStart (stripState s)) img sendOk).ok with
    | false =>
      exfalso
      rw [serveFound_fail_eq _ img sendOk hok] at hc'
      have hc2 : (sendStatus
          (failAfterSend (afterSend (advanceStart (stripState s)) img sendOk))
          ⟨(failAfterSend (afterSend (advanceStart (stripState s)) img
            sendOk)).status, 0, img.name, "Failed to send image"⟩).status
          = DStatus.updateComplete := hc'
      rw [sendStatus_status] at hc2
      rcases failAfterSend_status_cases
          (afterSend (advanceStart (stripState s)) img sendOk)
        with h | h | h <;> rw [h] at hc2
      · exact absurd hc2 (by decide)
      · exact absurd hc2 (by decide)
      · rw [afterSend_status] at hc2
        rcases advanceStart_status_cases (stripState s) with h2 | h2 | h2 <;>
          rw [h2] at hc2
        · exact absurd hc2 (by decide)
        · exact absurd hc2 (by decide)
        · exact hnc hc2
    | true =>
      rw [serveFound_ok_eq _ img sendOk hok] at hc'
      have hc2 : (postSendChain
          (afterSend (advanceStart (stripState s)) img sendOk) img).status
          = DStatus.updateComplete := hc'
      rcases postSendChain_updateComplete_cases _ img hc2 with hcase | hcase | hcase
      · exfalso
        have hfu : (afterSend (advanceStart (stripState s)) img
            sendOk).finalUpdateImage = s.finalUpdateImage := by
          rw [afterSend_finalUpdateImage, advanceStart_finalUpdateImage]
          rfl
        rw [hfu] at hcase
        exact hcase.2.2 (htyped img himgmem hcase.1 hcase.2.1)
      · rw [← himgname]
        exact hcase.2
      · exfalso
        rw [afterSend_status] at hcase
        rcases advanceStart_status_cases (stripState s) with h2 | h2 | h2 <;>
          rw [h2] at hcase
        · exact absurd hcase (by decide)
        · exact absurd hcase (by decide)
        · exact hnc hcase

/-- Step-level version of `serveRequest_updateComplete`: the only step
that can store `UPDATE_COMPLETE` serves `07_IMAGE` (under the
final-update typing hypothesis). -/
theorem step_updateComplete_only_sizeEcho (s : SessState) (ev : SessEv)
    (htyped : ∀ img ∈ s.images, s.finalUpdateImage ≠ "" →
      strContains img.name s.finalUpdateImage = true →
      (img.itype = ImageType.updateEmmc ∨ img.itype = ImageType.updateSpi))
    (hnc : s.status ≠ DStatus.updateComplete)
    (hc : (step s ev).status = DStatus.updateComplete) :
    stripSlashPrefix s.requestedImageName = sizeRequestImageFilename := by
  cases ev with
  | interrupt f =>
    exfalso
    cases f with
    | console t => exact hnc hc
    | marker tag raw =>
      have hc0 : (handleInterrupt s (Frame.marker tag raw)).status
          = DStatus.updateComplete := hc
      simp only [handleInterrupt] at hc0
      split at hc0
      · have hc1 : DStatus.updateStart = DStatus.updateComplete := hc0
        exact absurd hc1 (by decide)
      · exact hnc hc0
  | disconnect =>
    exfalso
    have hc0 : (usbEventDisconnect s).status = DStatus.updateComplete := hc
    rcases usbEventDisconnect_status_cases s with h | h | h <;> rw [h] at hc0
    · exact absurd hc0 (by decide)
    · exact absurd hc0 (by decide)
    · exact hnc hc0
  | loopIter ok =>
    have hc0 : (handleImageRequestsIter s ok).status = DStatus.updateComplete := hc
    cases hb : s.loopDone with
    | true =>
      exfalso
      have heq : handleImageRequestsIter s ok = s := by
        simp [handleImageRequestsIter, hb]
      rw [heq] at hc0
      exact hnc hc0
    | false =>
      cases hrun : s.running with
      | false =>
        exfalso
        have heq : handleImageRequestsIter s ok = { s with loopDone := true } := by
          simp [handleImageRequestsIter, hb, hrun]
        rw [heq] at hc0
        exact hnc hc0
      | true =>
        cases hready : s.imageRequestReady with
        | true =>
          have heq : handleImageRequestsIter s ok
              = serveRequest { s with imageRequestReady := false } ok := by
            simp [handleImageRequestsIter, hb, hrun, hready]
          rw [heq] at hc0
          exact serveRequest_updateComplete
            { s with imageRequestReady := false } ok htyped hnc hc0
        | false =>
          exfalso
          by_cases hbp : s.status = DStatus.bootProgress
          · have heq : handleImageRequestsIter s ok
                = { sendStatus s ⟨DStatus.bootFail, 0, "",
                    "Timeout during boot, press RESET while holding USB_BOOT to try again"⟩
                    with loopDone := true } := by
              simp [handleImageRequestsIter, hb, hrun, hready, hbp]
            rw [heq] at hc0
            have hc1 : (sendStatus s ⟨DStatus.bootFail, 0, "",
                "Timeout during boot, press RESET while holding USB_BOOT to try again"⟩).status
                = DStatus.updateComplete := hc0
            rw [sendStatus_status] at hc1
            exact hnc hc1
          · have heq : handleImageRequestsIter s ok = s := by
              simp [handleImageRequestsIter, hb, hrun, hready, hbp]
            rw [heq] at hc0
            exact hnc hc0

/-! ## Claims -/

/-- C8: a SPI flash plan built with `image_type=spi`, a single
`image_file=uboot.bin`, default addresses, and reset enabled produces
exactly the claimed U-Boot command string, including the doubled `; `
before the reset suffix. -/
theorem spi_single_default_command :
    spiFlashCommand
      [parseSpiFlashConfig [("type", "config"), ("image_file", "uboot.bin")]
        "uboot.bin"] true
      = "usbload uboot.bin 0x10000000; spinit; erase 0xf0000000 0xf01fffff; cp.b 0x10000000 0xf0000000 0x200000; erase 0xf0200000 0xf03fffff; cp.b 0x10000000 0xf0200000 0x200000; ; sleep 1; reset" := by
  rfl

/-- C10: whenever the eMMC flash image path names an existing
directory, `EmmcFlashImage::Load` forces `m_resetWhenComplete` to
`true`, whatever value (including `reset=disable`, i.e. `false`) the
plan was constructed with. -/
theorem emmcLoad_forces_reset (initReset : Bool) (directoryName : String) :
    (emmcLoad initReset true directoryName).resetWhenComplete = true := rfl

/-- C9: a boot bundle is Linux-boot iff it contains `Image.gz` and
`ramdisk.cpio.gz` (final boot image `ramdisk.cpio.gz`) or `Image` and
`rootfs.cpio.gz` (final boot image `rootfs.cpio.gz`); otherwise the
final boot image is `minildr.img` for secure-boot V2, `uEnv.txt` for V3
with uEnv support, and `gen3_uboot.bin.usb` for V3 without. -/
theorem bootImage_linux_detection (files : List String)
    (sb : SecureBootVersion) (uEnv : Bool) :
    ((bootImageFinal files sb uEnv).1 = true ↔
      (("Image.gz" ∈ files ∧ "ramdisk.cpio.gz" ∈ files)
        ∨ ("Image" ∈ files ∧ "rootfs.cpio.gz" ∈ files)))
    ∧ ("Image.gz" ∈ files ∧ "ramdisk.cpio.gz" ∈ files →
        (bootImageFinal files sb uEnv).2 = "ramdisk.cpio.gz")
    ∧ (¬("Image.gz" ∈ files ∧ "ramdisk.cpio.gz" ∈ files) →
        "Image" ∈ files → "rootfs.cpio.gz" ∈ files →
        (bootImageFinal files sb uEnv).2 = "rootfs.cpio.gz")
    ∧ ((bootImageFinal files sb uEnv).1 = false →
        (bootImageFinal files sb uEnv).2
          = (match sb, uEnv with
            | .v2, _ => "minildr.img"
            | .v3, true => "uEnv.txt"
            | .v3, false => "gen3_uboot.bin.usb")) := by
  by_cases hA : "Image.gz" ∈ files <;>
    by_cases hB : "ramdisk.cpio.gz" ∈ files <;>
    by_cases hC : "Image" ∈ files <;>
    by_cases hD : "rootfs.cpio.gz" ∈ files <;>
    cases sb <;> cases uEnv <;>
    simp [bootImageFinal, hA, hB, hC, hD]

/-- C9 witness: a bundle with kernel and ramdisk is Linux-boot with
final image `ramdisk.cpio.gz`. -/
theorem bootImage_linux_detection_witness :
    (bootImageFinal ["manifest.yaml", "Image.gz", "ramdisk.cpio.gz"]
      SecureBootVersion.v3 false).2 = "ramdisk.cpio.gz" :=
  (bootImage_linux_detection ["manifest.yaml", "Image.gz", "ramdisk.cpio.gz"]
    SecureBootVersion.v3 false).2.1 (by decide)

/-- C4: the bulk-out byte stream of a successful image send is the
4-byte little-endian size, 4 zero bytes, then exactly the image's file
contents. -/
theorem sendImage_framing (contents : List Nat) (bufSize : Nat)
    (hbuf : 0 < bufSize) (hsz : contents.length < 4294967296) :
    sendImageStream contents bufSize
      = some (leBytes4 contents.length ++ [0, 0, 0, 0] ++ contents)
    ∧ (leBytes4 contents.length).length = 4 := by
  have ht : u32trunc contents.length = contents.length := Nat.mod_eq_of_lt hsz
  refine ⟨?_, rfl⟩
  unfold sendImageStream sendBlocks
  rw [ht]
  obtain ⟨bs, hbs, hjoin⟩ := sendLoop_correct contents bufSize hbuf
    (contents.length + 1) 0 (Nat.zero_le _) (by omega)
  rw [show (8 : Nat) = 0 + 8 from rfl, hbs]
  simp [hjoin]

/-- C4 witness: the stream for a 3-byte image through the real 1 MiB+4
buffer. -/
theorem sendImage_framing_witness :
    sendImageStream [10, 20, 30] imageBufferSize
      = some ([3, 0, 0, 0] ++ [0, 0, 0, 0] ++ [10, 20, 30]) :=
  (sendImage_framing [10, 20, 30] imageBufferSize (by decide) (by decide)).1

/-- C3: after a successful send whose request tag byte exceeds `0x79`,
the `07_IMAGE` file holds exactly the 4 little-endian bytes of the
just-sent image's recorded size; a tag byte of at most `0x79` leaves
the file untouched. -/
theorem sizeEcho_after_send (s : SessState) (img : ImageRec) (sendOk : Bool)
    (c : List Nat) (heff : effectiveContents s img = some c)
    (hok : (sendImage s img sendOk).ok = true) :
    (0x79 < s.imageType →
      (sendImage s img sendOk).sizeFile = some (leBytes4 (u32trunc c.length))
        ∧ (leBytes4 (u32trunc c.length)).length = 4)
    ∧ (s.imageType ≤ 0x79 →
      (sendImage s img sendOk).sizeFile = s.sizeFile) := by
  cases sendOk with
  | false =>
    exfalso
    simp [sendImage, heff] at hok
  | true =>
    cases hbs : sendBlocks c imageBufferSize with
    | none =>
      exfalso
      simp [sendImage, heff, hbs] at hok
    | some bs =>
      constructor
      · intro hgt
        refine ⟨?_, rfl⟩
        simp [sendImage, heff, hbs, hgt]
      · intro hle
        simp [sendImage, heff, hbs, Nat.not_lt.mpr hle]

/-- C3 witness: a 2-byte eMMC payload sent with tag `0x80` leaves
`[2, 0, 0, 0]` in `07_IMAGE`. -/
theorem sizeEcho_after_send_witness :
    (sendImage { baseState with imageType := 0x80 }
      ⟨"rootfs.subimg", ImageType.updateEmmc, [7, 9]⟩ true).sizeFile
      = some [2, 0, 0, 0] :=
  ((sizeEcho_after_send { baseState with imageType := 0x80 }
    ⟨"rootfs.subimg", ImageType.updateEmmc, [7, 9]⟩ true [7, 9]
    (by decide) (by decide)).1 (by decide)).1

/-- C2 counterexample: with the last-requested image
`gen3_miniloader.bin.usb`, a disconnect indeed causes no failure
transition and no status event, but the session does **not** remain
running: `m_running` is cleared unconditionally
(`USBEventHandler`, `m_running.store(false)` after the `if`). -/
theorem miniloader_disconnect_stops_session :
    (step { baseState with
        requestedImageName := "gen3_miniloader.bin.usb"
        status := DStatus.bootProgress } SessEv.disconnect).running = false
    ∧ (step { baseState with
        requestedImageName := "gen3_miniloader.bin.usb"
        status := DStatus.bootProgress } SessEv.disconnect).status
      = DStatus.bootProgress
    ∧ (step { baseState with
        requestedImageName := "gen3_miniloader.bin.usb"
        status := DStatus.bootProgress } SessEv.disconnect).emitted = [] := by
  decide

/-- C2 (amended): after `gen3_miniloader.bin.usb` was last requested, a
disconnect event leaves the phase unchanged (no BootFail/UpdateFail)
and emits nothing, but it clears the running flag, so the
request-serving loop exits; the re-enumerated device is handled as a
new arrival by the transport, not by this session. -/
theorem miniloader_disconnect_suppresses_failure (s : SessState)
    (h : s.requestedImageName = "gen3_miniloader.bin.usb") :
    (step s SessEv.disconnect).status = s.status
    ∧ (step s SessEv.disconnect).emitted = s.emitted
    ∧ (step s SessEv.disconnect).running = false := by
  show (usbEventDisconnect s).status = s.status
    ∧ (usbEventDisconnect s).emitted = s.emitted
    ∧ (usbEventDisconnect s).running = false
  unfold usbEventDisconnect
  rw [if_pos h]
  exact ⟨rfl, rfl, rfl⟩

/-- C2 witness: the amended behaviour at a concrete
`UPDATE_PROGRESS` state. -/
theorem miniloader_disconnect_suppresses_failure_witness :
    (step { baseState with
        requestedImageName := "gen3_miniloader.bin.usb"
        status := DStatus.updateProgress } SessEv.disconnect).status
      = DStatus.updateProgress
    ∧ (step { baseState with
        requestedImageName := "gen3_miniloader.bin.usb"
        status := DStatus.updateProgress } SessEv.disconnect).emitted = []
    ∧ (step { baseState with
        requestedImageName := "gen3_miniloader.bin.usb"
        status := DStatus.updateProgress } SessEv.disconnect).running = false :=
  miniloader_disconnect_suppresses_failure
    { baseState with
      requestedImageName := "gen3_miniloader.bin.usb"
      status := DStatus.updateProgress } rfl

/-- C1 (code bug): in boot-only mode the session's phase never becomes
`BOOT_COMPLETE` — the only assignment of `BOOT_COMPLETE` is guarded by
`!m_bootOnly`, yet `WaitForCompletion` only reports success when
`m_status == BOOT_COMPLETE` (the code's own comment says it "will get
sent from WaitForCompletion when in boot only mode").  Concretely, the
S1 run ends in `BOOT_FAIL` with a final "Device disconnected" event,
and no `(BootComplete, 100, "", "Success")` event is ever
delivered. -/
theorem bootOnly_never_bootComplete :
    (∀ (s : SessState) (ev : SessEv), s.bootOnly = true →
      s.status ≠ DStatus.bootComplete →
      ((step s ev).status ≠ DStatus.bootComplete
        ∧ (step s ev).bootOnly = true))
    ∧ (stepMany s1BootInit s1Trace).status = DStatus.bootFail
    ∧ (sessionEmitted (stepMany s1BootInit s1Trace) false).getLast?
        = some ⟨DStatus.bootFail, 0, "", "Device disconnected"⟩
    ∧ (∀ e ∈ sessionEmitted (stepMany s1BootInit s1Trace) false,
        e.status ≠ DStatus.bootComplete) := by
  refine ⟨?_, by decide, by decide, by decide⟩
  intro s ev hb hnc
  refine ⟨step_no_bootComplete s ev hb hnc, ?_⟩
  rw [step_bootOnly, hb]

/-- C1 witness: the general invariant applied at a concrete boot-only
state. -/
theorem bootOnly_never_bootComplete_witness :
    (step { baseState with bootOnly := true, status := DStatus.bootProgress }
      (SessEv.loopIter true)).status ≠ DStatus.bootComplete :=
  (bootOnly_never_bootComplete.1
    { baseState with bootOnly := true, status := DStatus.bootProgress }
    (SessEv.loopIter true) rfl (by decide)).1

/-- C5: gating of `UPDATE_COMPLETE` by the size echo.  (i) Serving the
final update image with eMMC/SPI type leaves the phase at
`UPDATE_PROGRESS` and arms the size-request wait; (ii) under the
hypothesis that every image matching the final update image has
eMMC/SPI type, the only step that can store `UPDATE_COMPLETE` is a
serve of `07_IMAGE`; (iii) serving `07_IMAGE` while armed stores
`UPDATE_COMPLETE`; (iv) a final update image of any other type stores
`UPDATE_COMPLETE` immediately. -/
theorem updateComplete_gating :
    (∀ (s2 : SessState) (img : ImageRec),
      s2.status = DStatus.updateProgress →
      ¬(s2.finalBootImage ≠ "" ∧ strContains img.name s2.finalBootImage = true) →
      s2.finalUpdateImage ≠ "" →
      strContains img.name s2.finalUpdateImage = true →
      (img.itype = ImageType.updateEmmc ∨ img.itype = ImageType.updateSpi) →
      (postSendChain s2 img).status = DStatus.updateProgress
        ∧ (postSendChain s2 img).waitForSizeRequest = true)
    ∧ (∀ (s : SessState) (ev : SessEv),
        (∀ img ∈ s.images, s.finalUpdateImage ≠ "" →
          strContains img.name s.finalUpdateImage = true →
          (img.itype = ImageType.updateEmmc ∨ img.itype = ImageType.updateSpi)) →
        s.status ≠ DStatus.updateComplete →
        (step s ev).status = DStatus.updateComplete →
        stripSlashPrefix s.requestedImageName = sizeRequestImageFilename)
    ∧ (∀ (s2 : SessState) (img : ImageRec),
        img.name = sizeRequestImageFilename →
        s2.waitForSizeRequest = true →
        ¬(s2.finalBootImage ≠ "" ∧ strContains img.name s2.finalBootImage = true) →
        ¬(s2.finalUpdateImage ≠ ""
          ∧ strContains img.name s2.finalUpdateImage = true) →
        (postSendChain s2 img).status = DStatus.updateComplete
          ∧ (postSendChain s2 img).waitForSizeRequest = false)
    ∧ (∀ (s2 : SessState) (img : ImageRec),
        ¬(s2.finalBootImage ≠ "" ∧ strContains img.name s2.finalBootImage = true) →
        s2.finalUpdateImage ≠ "" →
        strContains img.name s2.finalUpdateImage = true →
        ¬(img.itype = ImageType.updateEmmc ∨ img.itype = ImageType.updateSpi) →
        (postSendChain s2 img).status = DStatus.updateComplete) := by
  refine ⟨?_, ?_, ?_, ?_⟩
  · intro s2 img hp hnb hfu hcont htype
    unfold postSendChain
    rw [if_neg hnb, if_pos ⟨hfu, hcont⟩, if_pos htype]
    exact ⟨hp, rfl⟩
  · intro s ev htyped hnc hc
    exact step_updateComplete_only_sizeEcho s ev htyped hnc hc
  · intro s2 img hname hw hnb hnfu
    unfold postSendChain
    rw [if_neg hnb, if_neg hnfu, if_pos ⟨hw, hname⟩]
    exact ⟨rfl, rfl⟩
  · intro s2 img hnb hfu hcont htype
    unfold postSendChain
    rw [if_neg hnb, if_pos ⟨hfu, hcont⟩, if_neg htype]

/-- C5 witness: the size-echo serve completes a concrete armed update
session, and a concrete eMMC final image arms the wait. -/
theorem updateComplete_gating_witness :
    ((postSendChain { baseState with
        status := DStatus.updateProgress
        waitForSizeRequest := true } ⟨"07_IMAGE", ImageType.updateEmmc, []⟩).status
      = DStatus.updateComplete)
    ∧ (postSendChain { baseState with
        status := DStatus.updateProgress
        finalUpdateImage := "rootfs.subimg" }
        ⟨"rootfs.subimg", ImageType.updateEmmc, [1]⟩).waitForSizeRequest = true :=
  ⟨(updateComplete_gating.2.2.1 { baseState with
      status := DStatus.updateProgress
      waitForSizeRequest := true } ⟨"07_IMAGE", ImageType.updateEmmc, []⟩
      rfl rfl (by decide) (by decide)).1,
   (updateComplete_gating.1 { baseState with
      status := DStatus.updateProgress
      finalUpdateImage := "rootfs.subimg" }
      ⟨"rootfs.subimg", ImageType.updateEmmc, [1]⟩
      rfl (by decide) (by decide) (by decide) (Or.inl rfl)).2⟩

/-- C6 counterexample: neither `BOOT_COMPLETE` nor `UPDATE_COMPLETE` is
absorbing.  A request marker arriving in `BOOT_COMPLETE` of a
non-boot-only session moves the phase to `UPDATE_START`
(`HandleInterrupt`), and serving an image whose name contains the
final boot image moves `UPDATE_COMPLETE` back to `BOOT_COMPLETE`
(`HandleImageRequests`, final-boot branch). -/
theorem completePhases_can_change :
    ((step { baseState with status := DStatus.bootComplete, bootOnly := false }
      (SessEv.interrupt (Frame.marker 0x70 "u-boot.bin"))).status
      = DStatus.updateStart
    ∧ DStatus.updateStart ≠ DStatus.bootComplete)
    ∧ ((step { baseState with
        status := DStatus.updateComplete
        bootOnly := false
        finalBootImage := "uEnv.txt"
        images := [⟨"uEnv.txt", ImageType.boot, []⟩]
        requestedImageName := "uEnv.txt"
        imageRequestReady := true } (SessEv.loopIter true)).status
      = DStatus.bootComplete
    ∧ DStatus.bootComplete ≠ DStatus.updateComplete) := by
  decide

/-- C6 (amended): once the phase has entered `BootFail` or
`UpdateFail`, no later step of the session changes it (every code path
that stores a failure phase also stops the serving loop or clears the
running flag, and from such a state the phase is frozen); the
`*Complete` phases are not terminal in this sense. -/
theorem failPhase_never_changes (s0 : SessState) (hg : FailGuard s0)
    (evs : List SessEv) (ev : SessEv)
    (hf : (stepMany s0 evs).status = DStatus.bootFail
      ∨ (stepMany s0 evs).status = DStatus.updateFail) :
    (step (stepMany s0 evs) ev).status = (stepMany s0 evs).status :=
  step_fail_frozen (stepMany s0 evs) ev (stepMany_failGuard s0 evs hg) hf

/-- C6 witness: a concrete failed session stays failed across a
further event. -/
theorem failPhase_never_changes_witness :
    (step (stepMany { baseState with
        status := DStatus.updateFail
        loopDone := true } [SessEv.interrupt (Frame.marker 0 "x.bin")])
      SessEv.disconnect).status
      = (stepMany { baseState with
        status := DStatus.updateFail
        loopDone := true } [SessEv.interrupt (Frame.marker 0 "x.bin")]).status :=
  failPhase_never_changes
    { baseState with status := DStatus.updateFail, loopDone := true }
    (fun _ => Or.inl rfl) [SessEv.interrupt (Frame.marker 0 "x.bin")]
    SessEv.disconnect (by decide)

/-- C7 counterexample: a request-wait timeout in `BOOT_PROGRESS` emits
the BootFail status and terminates the loop, but the session's stored
phase is **not** assigned: it remains `BOOT_PROGRESS` (the timeout path
calls `SendStatus` without writing `m_status`). -/
theorem bootTimeout_does_not_assign_status :
    (step { baseState with status := DStatus.bootProgress }
      (SessEv.loopIter true)).status = DStatus.bootProgress
    ∧ (step { baseState with status := DStatus.bootProgress }
      (SessEv.loopIter true)).loopDone = true
    ∧ (step { baseState with status := DStatus.bootProgress }
      (SessEv.loopIter true)).emitted
      = [⟨DStatus.bootFail, 0, "",
        "Timeout during boot, press RESET while holding USB_BOOT to try again"⟩] := by
  decide

/-- C7 (amended): a 10 s timeout while the phase is `BOOT_PROGRESS`
emits a BootFail status whose message contains "Timeout during boot"
and mentions USB_BOOT and makes the serving loop return, but the
stored phase is left at `BOOT_PROGRESS`; a timeout in any other phase
is ignored and the loop waits again (the state is unchanged). -/
theorem requestTimeout_behavior (s : SessState) (ok : Bool)
    (hld : s.loopDone = false) (hr : s.running = true)
    (hready : s.imageRequestReady = false) :
    (s.status = DStatus.bootProgress →
      (step s (SessEv.loopIter ok)).status = s.status
      ∧ (step s (SessEv.loopIter ok)).loopDone = true
      ∧ (step s (SessEv.loopIter ok)).emitted = s.emitted
          ++ [⟨DStatus.bootFail, 0, "",
            "Timeout during boot, press RESET while holding USB_BOOT to try again"⟩]
      ∧ strContains
          "Timeout during boot, press RESET while holding USB_BOOT to try again"
          "Timeout during boot" = true
      ∧ strContains
          "Timeout during boot, press RESET while holding USB_BOOT to try again"
          "USB_BOOT" = true)
    ∧ (s.status ≠ DStatus.bootProgress → step s (SessEv.loopIter ok) = s) := by
  constructor
  · intro hbp
    have hstep : step s (SessEv.loopIter ok)
        = { s with
            loopDone := true
            emitted := s.emitted ++ [⟨DStatus.bootFail, 0, "",
              "Timeout during boot, press RESET while holding USB_BOOT to try again"⟩] } := by
      show handleImageRequestsIter s ok = _
      simp [handleImageRequestsIter, hld, hr, hready, hbp, sendStatus,
        sizeRequestImageFilename]
    rw [hstep]
    exact ⟨rfl, rfl, rfl, by decide, by decide⟩
  · intro hnbp
    show handleImageRequestsIter s ok = s
    simp [handleImageRequestsIter, hld, hr, hready, hnbp]

/-- C7 witness: the amended behaviour at concrete states, on both
sides (timeout in `BOOT_PROGRESS` and ignored timeout in
`UPDATE_START`). -/
theorem requestTimeout_behavior_witness :
    ((step { baseState with status := DStatus.bootProgress }
        (SessEv.loopIter true)).loopDone = true)
    ∧ step { baseState with status := DStatus.updateStart }
        (SessEv.loopIter true) = { baseState with status := DStatus.updateStart } :=
  ⟨((requestTimeout_behavior { baseState with status := DStatus.bootProgress }
      true rfl rfl rfl).1 rfl).2.1,
   (requestTimeout_behavior { baseState with status := DStatus.updateStart }
      true rfl rfl rfl).2 (by decide)⟩

end AstraUpdate
